/-
Verification of the anon-ticket payment-redemption service.

This file gives a shallow embedding, in Lean 4, of the core data model and
operations of the anon-ticket repository:

* domain model: `PaymentId` hex parsing/formatting and the deterministic
  SHA3-256 service-token derivation (src/crates/domain/src/model/mod.rs);
* the payment store (`insert_payment`, `claim_payment`, `find_payment`,
  src/crates/storage/src/payment_store.rs), modelled as an association list
  of rows mirroring the SQL statements executed by the SeaORM code;
* the token store (`insert_token`, `find_token`, `revoke_token`,
  src/crates/storage/src/token_store.rs);
* the PID cache used by the redemption handler
  (negative entries with a TTL, src/crates/domain/src/cache.rs);
* the HTTP handlers `redeem_handler` (src/crates/api/src/handlers/redeem.rs)
  and `revoke_token_handler` (src/crates/api/src/handlers/token.rs),
  instrumented with an explicit trace of storage operations;
* the ingestion pipeline `process_entry` (src/crates/monitor/src/pipeline.rs)
  and the cursor arithmetic of `handle_batch` / `monitor_tick`
  (src/crates/monitor/src/worker.rs);
* the Bloom-filter configuration validation `PidBloom::new`
  (src/crates/domain/src/services/cache.rs).

Rust machine integers are modelled as `Nat` / `Int` with explicit `% 2 ^ 64`
where u64 wrap-around or saturation matters.  Bytes are `Nat` values `< 256`;
Rust `String`s are modelled as their UTF-8 byte lists.  SHA3-256 is
implemented concretely (Keccak-f[1600] on `Nat` lanes reduced mod `2 ^ 64`)
and checked below against the test vector recorded in the repository's own
unit test (`service_token_uses_separator_and_sha3`).
-/
import Mathlib

set_option maxRecDepth 10000

deriving instance DecidableEq for Except

namespace AnonTicket

/-! ## Hex and byte utilities

Mirrors the `hex` crate encoding/decoding used by
src/crates/domain/src/model/mod.rs.  `hex::encode` writes lowercase hex;
`hex::decode` accepts both cases and fails on odd length or a non-hex byte. -/

/-- Lowercase hex digit for a value `n < 16` (ASCII code). -/
def hexDigitLower (n : Nat) : Nat := if n < 10 then 48 + n else 87 + n

/-- Two lowercase hex characters for one byte, as in `hex::encode`. -/
def encodeByteHex (b : Nat) : List Nat := [hexDigitLower (b / 16), hexDigitLower (b % 16)]

/-- Lowercase hex encoding of a byte string. -/
def bytesToHex (bs : List Nat) : List Nat := (bs.map encodeByteHex).flatten

/-- Value of one hex character (digit, lowercase or uppercase), as accepted by
`hex::decode` and by `char::is_ascii_hexdigit`. -/
def hexCharVal (c : Nat) : Option Nat :=
  if 48 ≤ c ∧ c ≤ 57 then some (c - 48)
  else if 97 ≤ c ∧ c ≤ 102 then some (c - 87)
  else if 65 ≤ c ∧ c ≤ 70 then some (c - 55)
  else none

/-- Model of Rust `char::is_ascii_hexdigit` on a byte. -/
def isAsciiHexDigit (c : Nat) : Bool := (hexCharVal c).isSome

/-- ASCII lower-casing of one byte (`A`-`Z` mapped down, rest unchanged). -/
def toLowerAscii (c : Nat) : Nat := if 65 ≤ c ∧ c ≤ 90 then c + 32 else c

/-- Errors of `hex::decode` that can actually occur on `Vec<u8>` output. -/
inductive HexDecodeError
  | invalidHexCharacter
  | oddLength
deriving DecidableEq, Repr

/-- Decode consecutive pairs of hex characters; `none` on a non-hex byte. -/
def decodeHexPairs : List Nat → Option (List Nat)
  | [] => some []
  | c1 :: c2 :: rest =>
    match hexCharVal c1, hexCharVal c2, decodeHexPairs rest with
    | some h, some l, some bs => some ((16 * h + l) :: bs)
    | _, _, _ => none
  | [_] => none

/-- Model of `hex::decode` on a byte string. -/
def hexDecode (s : List Nat) : Except HexDecodeError (List Nat) :=
  if s.length % 2 = 1 then .error .oddLength
  else
    match decodeHexPairs s with
    | some bs => .ok bs
    | none => .error .invalidHexCharacter

/-! ## PaymentId (src/crates/domain/src/model/mod.rs) -/

/-- `PidFormatError` from src/crates/domain/src/model/mod.rs. -/
inductive PidFormatError
  | wrongLength
  | nonHex
deriving DecidableEq, Repr

/-- `PID_LENGTH` from src/crates/domain/src/model/mod.rs (16 hex characters). -/
def PID_LENGTH : Nat := 16

/-- `validate_pid`: length must be exactly 16 and every char a hex digit. -/
def validate_pid (s : List Nat) : Except PidFormatError Unit :=
  if s.length ≠ PID_LENGTH then .error .wrongLength
  else if ¬ (s.all isAsciiHexDigit) then .error .nonHex
  else .ok ()

/-- `map_hex_error_to_pid`: `InvalidHexCharacter → NonHex`,
`InvalidStringLength → WrongLength`, anything else (incl. `OddLength`) `NonHex`. -/
def mapHexErrorToPid : HexDecodeError → PidFormatError
  | .invalidHexCharacter => .nonHex
  | .oddLength => .nonHex

/-- A `PaymentId` is its raw 8-byte content (equality is on the raw bytes). -/
abbrev Pid := List Nat

/-- `decode_pid_hex`: hex-decode and insist on exactly 8 bytes. -/
def decode_pid_hex (s : List Nat) : Except PidFormatError Pid :=
  match hexDecode s with
  | .error e => .error (mapHexErrorToPid e)
  | .ok bs => if bs.length ≠ 8 then .error .wrongLength else .ok bs

/-- `PaymentId::parse`: validate, then decode. -/
def PaymentId.parse (s : List Nat) : Except PidFormatError Pid :=
  match validate_pid s with
  | .error e => .error e
  | .ok _ => decode_pid_hex s

/-- `PaymentId::to_hex` (the canonical lowercase form; also `Display`). -/
def PaymentId.toHex (p : Pid) : List Nat := bytesToHex p

/-! ## SHA3-256 (the `sha3` crate as used by `derive_service_token`)

Keccak-f[1600] over 25 lanes, each a `Nat` kept `< 2 ^ 64`. -/

/-- `2 ^ 64`, the lane modulus. -/
def U64 : Nat := 2 ^ 64

/-- Left-rotation of a 64-bit lane. -/
def rotl64 (x n : Nat) : Nat := ((x <<< n) % U64) ||| (x >>> (64 - n))

/-- One step of the degree-8 LFSR (`x^8 + x^6 + x^5 + x^4 + 1`) that
generates the Keccak round-constant bits. -/
def keccakLfsrStep (R : Nat) : Nat := ((R * 2) ^^^ ((R / 128) * 0x71)) % 256

/-- LFSR state after `t` steps from the initial state 1. -/
def keccakLfsrAt : Nat → Nat
  | 0 => 1
  | t + 1 => keccakLfsrStep (keccakLfsrAt t)

/-- Round-constant bit `rc(t)`. -/
def keccakRcBit (t : Nat) : Nat := keccakLfsrAt t % 2

/-- The 24 Keccak round constants, generated the standard way:
`RC[i] = Σ_{j ≤ 6} rc(7 i + j) · 2 ^ (2 ^ j − 1)`. -/
def keccakRC : List Nat :=
  (List.range 24).map fun i =>
    (List.range 7).foldl (fun acc j => acc + keccakRcBit (7 * i + j) * 2 ^ (2 ^ j - 1)) 0

/-- Rotation offsets, indexed `x + 5 * y`, generated by the standard walk:
start at `(x, y) = (1, 0)`; at step `t` the offset is the triangular number
`(t+1)(t+2)/2 mod 64` and the walk moves to `(y, 2x + 3y mod 5)` (lane
`(0,0)` keeps offset 0). -/
def rhoOffsets : List Nat :=
  ((List.range 24).foldl
    (fun acc t =>
      let arr := acc.1
      let x := acc.2.1
      let y := acc.2.2
      (arr.set (x + 5 * y) (((t + 1) * (t + 2) / 2) % 64), y, (2 * x + 3 * y) % 5))
    (List.replicate 25 0, 1, 0)).1

/-- Destination index of lane `i = x + 5 * y` under the π step
(`(x, y) ↦ (y, 2x + 3y)`). -/
def piDest (i : Nat) : Nat := i / 5 + 5 * ((2 * (i % 5) + 3 * (i / 5)) % 5)

/-- θ step. -/
def keccakTheta (A : List Nat) : List Nat :=
  let C := (List.range 5).map fun x =>
    A.getD x 0 ^^^ A.getD (x + 5) 0 ^^^ A.getD (x + 10) 0 ^^^
      A.getD (x + 15) 0 ^^^ A.getD (x + 20) 0
  let D := (List.range 5).map fun x =>
    C.getD ((x + 4) % 5) 0 ^^^ rotl64 (C.getD ((x + 1) % 5) 0) 1
  (List.range 25).map fun i => A.getD i 0 ^^^ D.getD (i % 5) 0

/-- Combined ρ and π steps. -/
def keccakRhoPi (A : List Nat) : List Nat :=
  (List.range 25).foldl
    (fun B i => B.set (piDest i) (rotl64 (A.getD i 0) (rhoOffsets.getD i 0)))
    (List.replicate 25 0)

/-- χ step (complement realised as xor with the all-ones lane). -/
def keccakChi (B : List Nat) : List Nat :=
  (List.range 25).map fun i =>
    let x := i % 5
    let y := i / 5
    B.getD i 0 ^^^ ((B.getD ((x + 1) % 5 + 5 * y) 0 ^^^ (U64 - 1)) &&& B.getD ((x + 2) % 5 + 5 * y) 0)

/-- One Keccak round: θ, ρ, π, χ, ι. -/
def keccakRound (A : List Nat) (rc : Nat) : List Nat :=
  let C := keccakChi (keccakRhoPi (keccakTheta A))
  C.set 0 (C.getD 0 0 ^^^ rc)

/-- The full Keccak-f[1600] permutation. -/
def keccakF (A : List Nat) : List Nat := keccakRC.foldl keccakRound A

/-- SHA3 padding (`pad10*1` with domain bits `0x06`) to the 136-byte rate. -/
def sha3Pad (m : List Nat) : List Nat :=
  let q := 136 - m.length % 136
  if q = 1 then m ++ [0x86]
  else m ++ [0x06] ++ List.replicate (q - 2) 0 ++ [0x80]

/-- Little-endian 64-bit lane from (up to) 8 bytes. -/
def laneOfBytes (bs : List Nat) : Nat := bs.foldr (fun b acc => b + 256 * acc) 0

/-- Absorb one 136-byte block and permute. -/
def absorbBlock (S : List Nat) (block : List Nat) : List Nat :=
  keccakF ((List.range 25).map fun i =>
    S.getD i 0 ^^^ (if i < 17 then laneOfBytes ((block.drop (8 * i)).take 8) else 0))

/-- Absorb a padded message, 136 bytes at a time.  The first argument is
structural fuel (any bound on the number of blocks) so that the definition
reduces inside the kernel. -/
def absorbGo : Nat → List Nat → List Nat → List Nat
  | 0, S, _ => S
  | fuel + 1, S, m =>
    if m = [] then S else absorbGo fuel (absorbBlock S (m.take 136)) (m.drop 136)

/-- Absorb a padded message (fuel `m.length` always suffices: every step
consumes 136 > 0 bytes). -/
def absorbAll (S : List Nat) (m : List Nat) : List Nat := absorbGo m.length S m

/-- SHA3-256 of a byte string: absorb, then squeeze the first 32 bytes. -/
def sha3_256 (m : List Nat) : List Nat :=
  let S := absorbAll (List.replicate 25 0) (sha3Pad m)
  (List.range 32).map fun i => (S.getD (i / 8) 0 >>> (8 * (i % 8))) % 256

/-- `derive_service_token` (src/crates/domain/src/model/mod.rs): the hasher
is fed `pid.to_hex()`, then the single byte `b"|"` (0x7C), then the txid
bytes; an incremental hash of several updates is the hash of their
concatenation. -/
def derive_service_token (pid : Pid) (txid : List Nat) : List Nat :=
  sha3_256 (PaymentId.toHex pid ++ [0x7C] ++ txid)

/-! ## ServiceToken parsing (src/crates/domain/src/model/mod.rs) -/

/-- `TokenFormatError` from src/crates/domain/src/model/mod.rs. -/
inductive TokenFormatError
  | wrongLength
  | nonHex
deriving DecidableEq, Repr

/-- `validate_hex_64`: length must be exactly 64 and every char a hex digit. -/
def validate_hex_64 (s : List Nat) : Except TokenFormatError Unit :=
  if s.length ≠ 64 then .error .wrongLength
  else if ¬ (s.all isAsciiHexDigit) then .error .nonHex
  else .ok ()

/-- `map_hex_error_to_token` (everything except string-length maps to NonHex). -/
def mapHexErrorToToken : HexDecodeError → TokenFormatError
  | .invalidHexCharacter => .nonHex
  | .oddLength => .nonHex

/-- `ServiceToken::parse`: validate, then decode to 32 raw bytes. -/
def ServiceToken.parse (s : List Nat) : Except TokenFormatError (List Nat) :=
  match validate_hex_64 s with
  | .error e => .error e
  | .ok _ =>
    match hexDecode s with
    | .error e => .error (mapHexErrorToToken e)
    | .ok bs => if bs.length ≠ 32 then .error .wrongLength else .ok bs

/-! ## Payment store (src/crates/storage/src/payment_store.rs)

The `payments` table (pid is the primary key) is modelled as a list of rows;
the SQL statements are mirrored operation by operation.  Timestamps are `Nat`
(milliseconds). -/

/-- `PaymentStatus` from the domain model. -/
inductive PaymentStatus
  | unclaimed
  | claimed
deriving DecidableEq, Repr

/-- One row of the `payments` table (= domain `PaymentRecord`). -/
structure PaymentRow where
  pid : Pid
  txid : List Nat
  amount : Int
  block_height : Int
  status : PaymentStatus
  created_at : Nat
  claimed_at : Option Nat
deriving DecidableEq, Repr

/-- `NewPayment` from the domain model. -/
structure NewPayment where
  pid : Pid
  txid : List Nat
  amount : Int
  block_height : Int
  detected_at : Nat
deriving DecidableEq, Repr

/-- The `payments` table. -/
abbrev PaymentDb := List PaymentRow

/-- `insert_payment`: `INSERT ... ON CONFLICT (pid) DO NOTHING`; a row is
appended with status `Unclaimed` and no `claimed_at` unless the pid exists. -/
def insert_payment (np : NewPayment) (db : PaymentDb) : PaymentDb :=
  if db.any (fun r => r.pid == np.pid) then db
  else db ++ [⟨np.pid, np.txid, np.amount, np.block_height, .unclaimed, np.detected_at, none⟩]

/-- The `WHERE pid = ? AND status = 'unclaimed'` predicate of `claim_payment`. -/
def claimableRow (p : Pid) (r : PaymentRow) : Bool :=
  r.pid == p && r.status == PaymentStatus.unclaimed

/-- The `SET status = 'claimed', claimed_at = now` assignment of `claim_payment`. -/
def claimRowUpdate (now : Nat) (r : PaymentRow) : PaymentRow :=
  { r with status := .claimed, claimed_at := some now }

/-- `ClaimOutcome` from the domain model. -/
structure ClaimOutcome where
  pid : Pid
  txid : List Nat
  amount : Int
  block_height : Int
  claimed_at : Nat
deriving DecidableEq, Repr

/-- `claim_payment`: `UPDATE payments SET status = claimed, claimed_at = now
WHERE pid = ? AND status = unclaimed RETURNING *`, then `query_one` (the first
returned row, whose `claimed_at` is `now`, so `unwrap_or(now)` yields `now`). -/
def claim_payment (now : Nat) (p : Pid) (db : PaymentDb) :
    Option ClaimOutcome × PaymentDb :=
  let db' := db.map fun r => if claimableRow p r then claimRowUpdate now r else r
  match db.find? (claimableRow p) with
  | some r => (some ⟨r.pid, r.txid, r.amount, r.block_height, now⟩, db')
  | none => (none, db')

/-- `find_payment`: `SELECT ... WHERE pid = ?` (`one`, i.e. the first match). -/
def find_payment (p : Pid) (db : PaymentDb) : Option PaymentRow :=
  db.find? (fun r => r.pid == p)

/-! ## Token store (src/crates/storage/src/token_store.rs) -/

/-- The one storage-error class the handlers inspect: a uniqueness violation
on insert (its database message contains "unique"). -/
inductive StorageErr
  | uniqueViolation
deriving DecidableEq, Repr

/-- One row of the `service_tokens` table (= domain `ServiceTokenRecord`). -/
structure TokenRow where
  token : List Nat
  pid : Pid
  amount : Int
  issued_at : Nat
  revoked_at : Option Nat
  revoke_reason : Option (List Nat)
  abuse_score : Int
deriving DecidableEq, Repr

/-- `NewServiceToken` from the domain model. -/
structure NewServiceToken where
  token : List Nat
  pid : Pid
  amount : Int
  issued_at : Nat
  abuse_score : Int
deriving DecidableEq, Repr

/-- The `service_tokens` table. -/
abbrev TokenDb := List TokenRow

/-- `insert_token`: plain `INSERT` (token is the primary key), which fails on
a uniqueness violation and otherwise returns the created record. -/
def insert_token (nt : NewServiceToken) (db : TokenDb) :
    Except StorageErr (TokenRow × TokenDb) :=
  if db.any (fun r => r.token == nt.token) then .error .uniqueViolation
  else
    let row : TokenRow := ⟨nt.token, nt.pid, nt.amount, nt.issued_at, none, none, nt.abuse_score⟩
    .ok (row, db ++ [row])

/-- `find_token`: `SELECT ... WHERE token = ?`. -/
def find_token (t : List Nat) (db : TokenDb) : Option TokenRow :=
  db.find? (fun r => r.token == t)

/-- `RevokeTokenRequest` from the domain model. -/
structure RevokeTokenRequest where
  token : List Nat
  reason : Option (List Nat)
  abuse_score : Option Int
deriving DecidableEq, Repr

/-- `revoke_token` (storage level): find the token; `None` if absent; if
already revoked return the record unchanged (write-once `revoked_at`);
otherwise stamp `revoked_at = now`, overwrite `revoke_reason` with the
request's reason, update `abuse_score` only when supplied. -/
def revoke_token (now : Nat) (req : RevokeTokenRequest) (db : TokenDb) :
    Option TokenRow × TokenDb :=
  match db.find? (fun r => r.token == req.token) with
  | none => (none, db)
  | some model =>
    if model.revoked_at.isSome then (some model, db)
    else
      let updated : TokenRow :=
        { model with
          revoked_at := some now
          revoke_reason := req.reason
          abuse_score := req.abuse_score.getD model.abuse_score }
      (some updated, db.map fun r => if r.token == req.token then updated else r)

/-! ## PID cache (src/crates/domain/src/cache.rs)

The cache used by `redeem_handler`: a set of positive hints plus a map of
negative entries stamped with the `Instant` at which `mark_absent` ran and
pruned against a TTL.  `negative_entry_age` (called by the handler but absent
from the snapshot of the cache file) is modelled from that map's stored
`Instant`s as the elapsed time of the entry, which is the only reading under
which the handler and its tests (src/crates/api/src/tests.rs) make sense.
All durations are milliseconds. -/

/-- The in-memory PID cache state. -/
structure PidCacheState where
  positives : List Pid
  negatives : List (Pid × Nat)
  ttl : Nat
deriving DecidableEq, Repr

/-- `prune_expired`: drop negative entries older than the TTL. -/
def pruneExpired (now : Nat) (c : PidCacheState) : PidCacheState :=
  { c with negatives := c.negatives.filter fun e => now - e.2 ≤ c.ttl }

/-- `might_contain` after pruning: true iff no negative entry remains. -/
def mightContain (c : PidCacheState) (p : Pid) : Bool :=
  ! c.negatives.any (fun e => e.1 == p)

/-- `mark_present`: record the positive hint and drop any negative entry. -/
def mark_present (p : Pid) (c : PidCacheState) : PidCacheState :=
  { c with
    positives := if c.positives.any (fun q => q == p) then c.positives else c.positives ++ [p]
    negatives := c.negatives.filter fun e => ! (e.1 == p) }

/-- `mark_absent`: (re)insert a negative entry stamped with `now`. -/
def mark_absent (now : Nat) (p : Pid) (c : PidCacheState) : PidCacheState :=
  { c with negatives := (c.negatives.filter fun e => ! (e.1 == p)) ++ [(p, now)] }

/-- `negative_entry_age`: elapsed time of the pid's negative entry, if any. -/
def negativeEntryAge (now : Nat) (c : PidCacheState) (p : Pid) : Option Nat :=
  (c.negatives.find? (fun e => e.1 == p)).map fun e => now - e.2

/-! ## API errors (src/crates/api/src/handlers/mod.rs) -/

/-- `ApiError` with its `ResponseError` HTTP mapping. -/
inductive ApiError
  | invalidPid (e : PidFormatError)
  | invalidToken (e : TokenFormatError)
  | notFound
  | alreadyRevoked
  | storage (e : StorageErr)
deriving DecidableEq, Repr

/-- `ApiError::status_code`. -/
def httpStatus : ApiError → Nat
  | .invalidPid _ => 400
  | .invalidToken _ => 400
  | .notFound => 404
  | .alreadyRevoked => 409
  | .storage _ => 500

/-! ## Redemption handler (src/crates/api/src/handlers/redeem.rs)

The handler is embedded as a pure state transformer over the payments table,
the token table and the PID cache, and instrumented with the list of storage
operations it performs (for the frame claims about short-circuiting). -/

/-- `PID_CACHE_NEGATIVE_GRACE` (500 ms). -/
def PID_CACHE_NEGATIVE_GRACE : Nat := 500

/-- The JSON body of a 200 redemption response; `service_token` is the
64-char hex rendering (`record.token.into_inner()`). -/
structure RedeemResponse where
  status : String
  service_token : List Nat
  balance : Int
deriving DecidableEq, Repr

/-- The storage calls a request can issue. -/
inductive StorageOp
  | claimPaymentOp
  | findPaymentOp
  | insertTokenOp
  | findTokenOp
deriving DecidableEq, Repr

/-- The state shared by the API handlers. -/
structure ApiSys where
  payments : PaymentDb
  tokens : TokenDb
  cache : PidCacheState
deriving DecidableEq, Repr

/-- `build_redeem_response`. -/
def buildRedeemResponse (status : String) (record : TokenRow) : RedeemResponse :=
  ⟨status, bytesToHex record.token, record.amount⟩

/-- `ensure_token_record`: re-derive the deterministic token, look it up, and
only if missing re-insert it, tolerating a uniqueness violation by
re-reading. -/
def ensure_token_record (now : Nat) (pid : Pid) (payment : PaymentRow)
    (tokens : TokenDb) : Except ApiError TokenRow × TokenDb × List StorageOp :=
  let token := derive_service_token pid payment.txid
  match find_token token tokens with
  | some existing => (.ok existing, tokens, [.findTokenOp])
  | none =>
    let issued_at := payment.claimed_at.getD now
    match insert_token ⟨token, pid, payment.amount, issued_at, 0⟩ tokens with
    | .ok (record, tokens') => (.ok record, tokens', [.findTokenOp, .insertTokenOp])
    | .error .uniqueViolation =>
      match find_token token tokens with
      | some record => (.ok record, tokens, [.findTokenOp, .insertTokenOp, .findTokenOp])
      | none => (.error .notFound, tokens, [.findTokenOp, .insertTokenOp, .findTokenOp])

/-- `handle_success`: derive the token, insert it (`issued_at` is the claim's
`claimed_at`, abuse score 0), mark the PID present, answer `"success"`. -/
def handle_success (pid : Pid) (outcome : ClaimOutcome) (sys : ApiSys) :
    Except ApiError RedeemResponse × ApiSys × List StorageOp :=
  let service_token := derive_service_token pid outcome.txid
  match insert_token ⟨service_token, pid, outcome.amount, outcome.claimed_at, 0⟩ sys.tokens with
  | .error e => (.error (.storage e), sys, [.insertTokenOp])
  | .ok (record, tokens') =>
    (.ok (buildRedeemResponse "success" record),
     { sys with tokens := tokens', cache := mark_present pid sys.cache },
     [.insertTokenOp])

/-- `handle_absent`: distinguish an already-claimed record (idempotent
`"already_claimed"` answer), a non-claimed record (defensive 404), and a
missing record (404 plus `mark_absent`). -/
def handle_absent (now : Nat) (pid : Pid) (sys : ApiSys) :
    Except ApiError RedeemResponse × ApiSys × List StorageOp :=
  match find_payment pid sys.payments with
  | some record =>
    if record.status == PaymentStatus.claimed then
      let cache' := mark_present pid sys.cache
      match ensure_token_record now pid record sys.tokens with
      | (.ok token, tokens', ops) =>
        (.ok (buildRedeemResponse "already_claimed" token),
         { sys with tokens := tokens', cache := cache' }, .findPaymentOp :: ops)
      | (.error e, tokens', ops) =>
        (.error e, { sys with tokens := tokens', cache := cache' }, .findPaymentOp :: ops)
    else
      (.error .notFound, { sys with cache := mark_present pid sys.cache }, [.findPaymentOp])
  | none =>
    (.error .notFound, { sys with cache := mark_absent now pid sys.cache }, [.findPaymentOp])

/-- The claim-and-respond phase shared by both gate outcomes. -/
def redeemClaimPhase (now : Nat) (pid : Pid) (sys : ApiSys) :
    Except ApiError RedeemResponse × ApiSys × List StorageOp :=
  match claim_payment now pid sys.payments with
  | (some outcome, payments') =>
    let r := handle_success pid outcome { sys with payments := payments' }
    (r.1, r.2.1, .claimPaymentOp :: r.2.2)
  | (none, payments') =>
    let r := handle_absent now pid { sys with payments := payments' }
    (r.1, r.2.1, .claimPaymentOp :: r.2.2)

/-- `redeem_handler`: parse the PID; consult the cache (pruning expired
negative entries, as `might_contain` does); short-circuit with 404 only when
a negative entry exists whose age is below the 500 ms grace; otherwise claim
and respond. -/
def redeem_handler (now : Nat) (sys : ApiSys) (rawPid : List Nat) :
    Except ApiError RedeemResponse × ApiSys × List StorageOp :=
  match PaymentId.parse rawPid with
  | .error e => (.error (.invalidPid e), sys, [])
  | .ok pid =>
    let cache1 := pruneExpired now sys.cache
    let sys1 := { sys with cache := cache1 }
    if ! mightContain cache1 pid then
      let shortCircuit :=
        match negativeEntryAge now cache1 pid with
        | some age => decide (age < PID_CACHE_NEGATIVE_GRACE)
        | none => false
      if shortCircuit then (.error .notFound, sys1, [])
      else redeemClaimPhase now pid sys1
    else redeemClaimPhase now pid sys1

/-! ## Token handlers (src/crates/api/src/handlers/token.rs) -/

/-- The JSON body of a 200 token-status response. -/
structure TokenStatusResponse where
  status : String
  amount : Int
  issued_at : Nat
  revoked_at : Option Nat
  abuse_score : Int
deriving DecidableEq, Repr

/-- `revoke_token_handler`: parse the token; 404 when unknown; **409
`AlreadyRevoked`** when the record is already revoked; otherwise revoke and
answer 200 with the updated record. -/
def revoke_token_handler (now : Nat) (tokens : TokenDb) (rawToken : List Nat)
    (reason : Option (List Nat)) (score : Option Int) :
    Except ApiError TokenStatusResponse × TokenDb :=
  match ServiceToken.parse rawToken with
  | .error e => (.error (.invalidToken e), tokens)
  | .ok token =>
    match find_token token tokens with
    | none => (.error .notFound, tokens)
    | some existing =>
      if existing.revoked_at.isSome then (.error .alreadyRevoked, tokens)
      else
        match revoke_token now ⟨token, reason, score⟩ tokens with
        | (none, tokens') => (.error .notFound, tokens')
        | (some updated, tokens') =>
          (.ok ⟨"revoked", updated.amount, updated.issued_at,
                updated.revoked_at, updated.abuse_score⟩, tokens')

/-! ## Bloom filter and monitor hooks
(src/crates/domain/src/services/cache.rs, src/crates/monitor/src/worker.rs)

`PidBloom` abstracts the `fastbloom` filter as the exact set of inserted
pids: the underlying filter has no false negatives, so membership here is the
set of which the real filter reports a superset. -/

/-- Abstract Bloom-filter state: the pids inserted so far. -/
abbrev BloomState := List Pid

/-- `PidBloom::insert`. -/
def PidBloom.insert (b : BloomState) (p : Pid) : BloomState := p :: b

/-- `PidBloom::might_contain` on the abstract (no-false-negative) state. -/
def PidBloom.mightContain (b : BloomState) (p : Pid) : Bool := b.any (fun q => q == p)

/-- `BloomConfigError`; the false-positive-rate variant's `thiserror` message
is `"false positive rate must be in (0,1): {0}"`. -/
inductive BloomConfigError
  | invalidEntries
  | invalidFalsePositiveRate (rate : ℚ)
deriving DecidableEq, Repr

/-- The static text of the `InvalidFalsePositiveRate` error message. -/
def invalidFpRateMessage : String := "false positive rate must be in (0,1): "

/-- `PidBloom::new`: `expected_items` must be nonzero and the rate must lie
in the half-open range `0.0..1.0` (Rust `Range::contains`, i.e. `0 ≤ r < 1`).
The rate is modelled as a rational; the only f64 behaviour this misses is
NaN, which fails both comparisons and is rejected exactly as here. -/
def PidBloom.new (expected_items : Nat) (false_positive_rate : ℚ) :
    Except BloomConfigError BloomState :=
  if expected_items = 0 then .error .invalidEntries
  else if ¬ (0 ≤ false_positive_rate ∧ false_positive_rate < 1) then
    .error (.invalidFalsePositiveRate false_positive_rate)
  else .ok []

/-- `MonitorHooks` (src/crates/monitor/src/worker.rs): optional cache and
Bloom sinks intended to run after persistence. -/
structure MonitorHooks where
  pid_cache : Option PidCacheState
  pid_bloom : Option BloomState
deriving DecidableEq, Repr

/-- `MonitorHooks::mark_present`: forward the pid to the cache and insert it
into the Bloom filter, when they are configured. -/
def MonitorHooks.markPresent (h : MonitorHooks) (p : Pid) : MonitorHooks :=
  { pid_cache := h.pid_cache.map (mark_present p)
    pid_bloom := h.pid_bloom.map fun b => PidBloom.insert b p }

/-! ## Ingestion pipeline (src/crates/monitor/src/pipeline.rs) -/

/-- `TransferEntry` (src/crates/monitor/src/rpc/types.rs). -/
structure TransferEntry where
  txid : List Nat
  amount : Int
  height : Option Int
  timestamp : Nat
  payment_id : Option (List Nat)
deriving DecidableEq, Repr

/-- `process_entry` exactly as defined in src/crates/monitor/src/pipeline.rs:
it takes the storage, the entry and the dust threshold — and *no* hooks
parameter — so it can only read and write the payments table.  (Its caller
`handle_batch` in src/crates/monitor/src/worker.rs line 147 passes a fourth
`hooks` argument that this definition does not accept.) -/
def process_entry (db : PaymentDb) (entry : TransferEntry) (min_payment_amount : Int) :
    Bool × PaymentDb :=
  match entry.payment_id, entry.height with
  | some pidStr, some height =>
    if entry.amount < min_payment_amount then (false, db)
    else
      match PaymentId.parse pidStr with
      | .error _ => (false, db)
      | .ok pid =>
        (true, insert_payment ⟨pid, entry.txid, entry.amount, height, entry.timestamp⟩ db)
  | _, _ => (false, db)

/-! ## Worker cursor arithmetic (src/crates/monitor/src/worker.rs) -/

/-- Largest u64 value. -/
def U64MAX : Nat := 2 ^ 64 - 1

/-- u64 `saturating_add`. -/
def satAdd64 (a b : Nat) : Nat := min (a + b) U64MAX

/-- `safe_height = wallet_height.saturating_add(1).saturating_sub(min_confirmations)`. -/
def safeHeight (wallet_height min_confirmations : Nat) : Nat :=
  satAdd64 wallet_height 1 - min_confirmations

/-- The `h as u64` cast applied to each entry's `i64` height. -/
def i64ToU64 (i : Int) : Nat := (i % (2 ^ 64)).toNat

/-- The running `observed_height` maximum over entries carrying a height
(computed for *every* such entry, before and regardless of the outcome of
`process_entry`). -/
def observedHeight (entries : List TransferEntry) : Option Nat :=
  entries.foldl
    (fun acc e =>
      match e.height with
      | some h => some (match acc with
        | some c => max c (i64ToU64 h)
        | none => i64ToU64 h)
      | none => acc)
    none

/-- The cursor written at the end of `handle_batch`:
`max_height_seen + 1` if any height was observed, else `safe_height + 1`,
clamped to `safe_height + 1` (all additions saturating). -/
def nextCursor (entries : List TransferEntry) (safe_height : Nat) : Nat :=
  let next :=
    match observedHeight entries with
    | some m => satAdd64 m 1
    | none => satAdd64 safe_height 1
  min next (satAdd64 safe_height 1)

/-- `handle_batch`: run `process_entry` over the batch and persist the new
cursor.  The hooks threaded in by the worker are returned untouched because
`process_entry` (as defined in pipeline.rs) takes no hooks argument. -/
def handle_batch (db : PaymentDb) (entries : List TransferEntry)
    (min_payment_amount : Int) (safe_height : Nat) (hooks : MonitorHooks) :
    PaymentDb × Nat × MonitorHooks :=
  let db' := entries.foldl (fun d e => (process_entry d e min_payment_amount).2) db
  (db', nextCursor entries safe_height, hooks)

/-- The observable outcome of one `monitor_tick`. -/
structure TickResult where
  fetched : Bool
  db : PaymentDb
  cursor : Nat
deriving DecidableEq, Repr

/-- `monitor_tick`: skip (no fetch, cursor unchanged) when the cursor is past
`safe_height`; otherwise fetch the batch (`entries`) and run `handle_batch`. -/
def monitor_tick (db : PaymentDb) (current_height : Nat) (entries : List TransferEntry)
    (min_payment_amount : Int) (safe_height : Nat) (hooks : MonitorHooks) : TickResult :=
  if current_height > safe_height then ⟨false, db, current_height⟩
  else
    let r := handle_batch db entries min_payment_amount safe_height hooks
    ⟨true, r.1, r.2.1⟩

/-! ## Shared helper lemmas -/

/-- Lowercase hex characters (`0`-`9`, `a`-`f`). -/
def isLowerHexChar (c : Nat) : Bool :=
  (decide (48 ≤ c) && decide (c ≤ 57)) || (decide (97 ≤ c) && decide (c ≤ 102))

theorem mem_unique_of_key {α β : Type} (key : α → β) {l : List α}
    (hn : (l.map key).Nodup) {x y : α} (hx : x ∈ l) (hy : y ∈ l)
    (hk : key x = key y) : x = y := by
  induction l with
  | nil => cases hx
  | cons a rest ih =>
    simp only [List.map_cons, List.nodup_cons] at hn
    rcases List.mem_cons.mp hx with rfl | hx'
    · rcases List.mem_cons.mp hy with rfl | hy'
      · rfl
      · exact absurd (hk ▸ List.mem_map_of_mem key hy') hn.1
    · rcases List.mem_cons.mp hy with rfl | hy'
      · exact absurd (hk ▸ List.mem_map_of_mem key hx') hn.1
      · exact ih hn.2 hx' hy'

theorem find?_eq_some_of_unique {α β : Type} (key : α → β) {l : List α}
    (hn : (l.map key).Nodup) {x : α} (hx : x ∈ l) (pred : α → Bool)
    (hpred : ∀ a, pred a = true → key a = key x) (hpx : pred x = true) :
    l.find? pred = some x := by
  induction l with
  | nil => cases hx
  | cons a rest ih =>
    simp only [List.map_cons, List.nodup_cons] at hn
    by_cases ha : pred a = true
    · have hax : a = x := by
        rcases List.mem_cons.mp hx with rfl | hx'
        · rfl
        · exact absurd ((hpred a ha) ▸ List.mem_map_of_mem key hx') hn.1
      rw [List.find?_cons_of_pos _ ha, hax]
    · rcases List.mem_cons.mp hx with rfl | hx'
      · exact absurd hpx ha
      · rw [List.find?_cons_of_neg _ (by simpa using ha)]
        exact ih hn.2 hx'

theorem map_eq_self_of {α : Type} {l : List α} {f : α → α}
    (h : ∀ a ∈ l, f a = a) : l.map f = l := by
  induction l with
  | nil => rfl
  | cons a rest ih =>
    simp only [List.map_cons, h a (List.mem_cons_self a rest),
      ih fun b hb => h b (List.mem_cons_of_mem a hb)]

/-! ## C10: Bloom configuration validation -/

/-- C10: `PidBloom::new(expected_items, false_positive_rate)` returns an error
iff `expected_items = 0` or the false-positive rate lies outside the
half-open interval `[0, 1)`; in particular a rate of exactly `0` is accepted
and yields `Ok`, even though the `InvalidFalsePositiveRate` message text
describes the open interval `(0,1)`. -/
theorem pid_bloom_new_validation :
    (∀ (n : Nat) (r : ℚ),
      (∃ b, PidBloom.new n r = .ok b) ↔ (n ≠ 0 ∧ 0 ≤ r ∧ r < 1)) ∧
    PidBloom.new 1 0 = .ok [] ∧
    invalidFpRateMessage = "false positive rate must be in (0,1): " := by
  refine ⟨?_, ?_, rfl⟩
  · intro n r
    constructor
    · rintro ⟨b, hb⟩
      unfold PidBloom.new at hb
      by_cases hn : n = 0
      · simp [hn] at hb
      · by_cases hr : 0 ≤ r ∧ r < 1
        · exact ⟨hn, hr⟩
        · simp [hn, hr] at hb
    · rintro ⟨hn, hr⟩
      exact ⟨[], by simp [PidBloom.new, hn, hr]⟩
  · unfold PidBloom.new
    norm_num

/-! ## C8: worker cursor arithmetic -/

/-- C8 counterexample: the final clause of the claim ("the ingestion worker
never advances the cursor past `wallet_height − min_confirmations`") fails.
With `wallet_height = 120`, `min_confirmations = 10` (so `safe_height = 111`)
and an empty batch from cursor 100, the persisted cursor is
`safe_height + 1 = 112 > 110 = wallet_height − min_confirmations`. -/
theorem monitor_cursor_bound_counterexample :
    (monitor_tick [] 100 [] 1 (safeHeight 120 10) ⟨none, none⟩).cursor = 112 ∧
    112 > 120 - 10 := by decide

/-- C8 (amended): on every tick with
`safe_height = wallet_height + 1 − min_confirmations` (saturating u64
arithmetic): a cursor above `safe_height` fetches nothing and stays
unchanged; otherwise the persisted cursor is `max_height_seen + 1` when any
entry carried a height, else `safe_height + 1`, clamped to
`safe_height + 1` — so the cursor never advances past `safe_height + 1`
(not past `wallet_height − min_confirmations`, as the claim stated). -/
theorem monitor_cursor_formula (db : PaymentDb) (current : Nat)
    (entries : List TransferEntry) (minAmt : Int) (wallet minConf : Nat)
    (hooks : MonitorHooks) :
    (current > safeHeight wallet minConf →
      monitor_tick db current entries minAmt (safeHeight wallet minConf) hooks =
        ⟨false, db, current⟩) ∧
    (current ≤ safeHeight wallet minConf →
      (monitor_tick db current entries minAmt (safeHeight wallet minConf) hooks).fetched
          = true ∧
      (∀ m, observedHeight entries = some m →
        (monitor_tick db current entries minAmt (safeHeight wallet minConf) hooks).cursor
          = min (satAdd64 m 1) (satAdd64 (safeHeight wallet minConf) 1)) ∧
      (observedHeight entries = none →
        (monitor_tick db current entries minAmt (safeHeight wallet minConf) hooks).cursor
          = satAdd64 (safeHeight wallet minConf) 1) ∧
      (monitor_tick db current entries minAmt (safeHeight wallet minConf) hooks).cursor
          ≤ satAdd64 (safeHeight wallet minConf) 1) := by
  constructor
  · intro h
    simp [monitor_tick, h]
  · intro h
    have hnot : ¬ current > safeHeight wallet minConf := by omega
    refine ⟨by simp [monitor_tick, hnot], ?_, ?_, ?_⟩
    · intro m hm
      simp [monitor_tick, hnot, handle_batch, nextCursor, hm]
    · intro hm
      simp [monitor_tick, hnot, handle_batch, nextCursor, hm]
    · simp only [monitor_tick, hnot, if_false, handle_batch, nextCursor]
      cases observedHeight entries <;> simp

/-- C8 witness: the amended formula applied at wallet height 120,
min confirmations 10, cursor 100 and an empty batch. -/
theorem monitor_cursor_formula_witness :
    (monitor_tick [] 100 [] 1 (safeHeight 120 10) ⟨none, none⟩).cursor =
      satAdd64 (safeHeight 120 10) 1 :=
  ((monitor_cursor_formula [] 100 [] 1 120 10 ⟨none, none⟩).2 (by decide)).2.2.1 (by decide)

/-! ## C7: the post-persist cache/Bloom hook is never invoked -/

/-- C7 (code bug): `process_entry` as defined in
src/crates/monitor/src/pipeline.rs takes no hooks argument, while its only
caller (`handle_batch`, src/crates/monitor/src/worker.rs line 147) passes one
and the `MonitorHooks` fields are documented "marks present after
persistence" / "inserts after persistence".  Evaluated at the failing input
(a qualifying transfer of amount 100 at height 101 with PID
`1111111111111111`, hooks configured with an empty cache and Bloom filter):
the entry is persisted, yet the hooks and the Bloom filter are untouched and
`bloom.might_contain(pid)` stays `false`; the hook itself, had it been
invoked, would have inserted the pid. -/
theorem process_entry_skips_hooks_at_failing_input :
    (process_entry [] ⟨[116, 120, 49], 100, some 101, 0, some (List.replicate 16 49)⟩ 1).1
        = true ∧
    (find_payment (List.replicate 8 17)
      (handle_batch [] [⟨[116, 120, 49], 100, some 101, 0, some (List.replicate 16 49)⟩]
        1 200 ⟨some ⟨[], [], 60000⟩, some []⟩).1).isSome = true ∧
    (handle_batch [] [⟨[116, 120, 49], 100, some 101, 0, some (List.replicate 16 49)⟩]
        1 200 ⟨some ⟨[], [], 60000⟩, some []⟩).2.2 = ⟨some ⟨[], [], 60000⟩, some []⟩ ∧
    PidBloom.mightContain
      ((handle_batch [] [⟨[116, 120, 49], 100, some 101, 0, some (List.replicate 16 49)⟩]
        1 200 ⟨some ⟨[], [], 60000⟩, some []⟩).2.2.pid_bloom.getD [])
      (List.replicate 8 17) = false ∧
    PidBloom.mightContain
      (((⟨some ⟨[], [], 60000⟩, some []⟩ : MonitorHooks).markPresent
          (List.replicate 8 17)).pid_bloom.getD [])
      (List.replicate 8 17) = true := by decide

/-! ## C9: PaymentId parse/format round trip -/

theorem encodeByte_digits : ∀ b : Nat, b < 256 →
    hexCharVal (hexDigitLower (b / 16)) = some (b / 16) ∧
    hexCharVal (hexDigitLower (b % 16)) = some (b % 16) ∧
    isLowerHexChar (hexDigitLower (b / 16)) = true ∧
    isLowerHexChar (hexDigitLower (b % 16)) = true := by decide

theorem bytesToHex_length (bs : List Nat) : (bytesToHex bs).length = 2 * bs.length := by
  induction bs with
  | nil => rfl
  | cons b rest ih =>
    simp only [bytesToHex, List.map_cons, List.flatten_cons, List.length_append,
      List.length_cons, encodeByteHex, List.length_nil] at *
    omega

theorem bytesToHex_cons (b : Nat) (bs : List Nat) :
    bytesToHex (b :: bs) = hexDigitLower (b / 16) :: hexDigitLower (b % 16) :: bytesToHex bs := by
  simp [bytesToHex, encodeByteHex]

theorem bytesToHex_lower (bs : List Nat) (hb : ∀ b ∈ bs, b < 256) :
    ∀ c ∈ bytesToHex bs, isLowerHexChar c = true := by
  induction bs with
  | nil => intro c hc; cases hc
  | cons b rest ih =>
    have h256 := hb b (List.mem_cons_self b rest)
    obtain ⟨_, _, h3, h4⟩ := encodeByte_digits b h256
    intro c hc
    rw [bytesToHex_cons] at hc
    rcases List.mem_cons.mp hc with rfl | hc'
    · exact h3
    · rcases List.mem_cons.mp hc' with rfl | hc''
      · exact h4
      · exact ih (fun x hx => hb x (List.mem_cons_of_mem b hx)) c hc''

theorem decodeHexPairs_bytesToHex (bs : List Nat) (hb : ∀ b ∈ bs, b < 256) :
    decodeHexPairs (bytesToHex bs) = some bs := by
  induction bs with
  | nil => rfl
  | cons b rest ih =>
    have h256 := hb b (List.mem_cons_self b rest)
    obtain ⟨h1, h2, _, _⟩ := encodeByte_digits b h256
    rw [bytesToHex_cons]
    simp only [decodeHexPairs, h1, h2,
      ih fun x hx => hb x (List.mem_cons_of_mem b hx)]
    have : 16 * (b / 16) + b % 16 = b := by omega
    rw [this]

theorem lowerHex_isHexDigit : ∀ c, isLowerHexChar c = true → isAsciiHexDigit c = true := by
  intro c h
  simp only [isLowerHexChar, Bool.or_eq_true, Bool.and_eq_true, decide_eq_true_eq] at h
  unfold isAsciiHexDigit hexCharVal
  split_ifs <;> simp_all

theorem hexDigit_lt : ∀ c, isAsciiHexDigit c = true → c < 103 := by
  intro c h
  unfold isAsciiHexDigit hexCharVal at h
  split_ifs at h <;> simp_all <;> omega

theorem hexCharVal_lt : ∀ c, (hexCharVal c).getD 0 < 16 := by
  intro c
  unfold hexCharVal
  split_ifs <;> simp <;> omega

theorem pair_canon : ∀ c1 : Nat, c1 < 103 → ∀ c2 : Nat, c2 < 103 →
    isAsciiHexDigit c1 = true → isAsciiHexDigit c2 = true →
    encodeByteHex (16 * (hexCharVal c1).getD 0 + (hexCharVal c2).getD 0) =
      [toLowerAscii c1, toLowerAscii c2] := by decide

/-- Decoding any all-hex string of even length succeeds, and re-encoding the
bytes yields the lowercase form of the input. -/
theorem decodeHexPairs_canon : ∀ s : List Nat, s.all isAsciiHexDigit = true →
    s.length % 2 = 0 →
    ∃ bs, decodeHexPairs s = some bs ∧ bytesToHex bs = s.map toLowerAscii ∧
      2 * bs.length = s.length ∧ (∀ b ∈ bs, b < 256)
  | [] => by
    intro _ _
    exact ⟨[], rfl, rfl, rfl, fun b hb => absurd hb (List.not_mem_nil b)⟩
  | [c] => by
    intro _ h
    simp at h
  | c1 :: c2 :: rest => by
    intro hall hlen
    simp only [List.all_cons, Bool.and_eq_true] at hall
    obtain ⟨h1, h2, hrest⟩ := hall
    obtain ⟨bs, hdec, henc, hlen2, hbound⟩ := decodeHexPairs_canon rest hrest (by
      simp only [List.length_cons] at hlen; omega)
    obtain ⟨v1, hv1⟩ := Option.isSome_iff_exists.mp h1
    obtain ⟨v2, hv2⟩ := Option.isSome_iff_exists.mp h2
    refine ⟨(16 * v1 + v2) :: bs, ?_, ?_, ?_, ?_⟩
    · simp only [decodeHexPairs, hv1, hv2, hdec]
    · have hc1 := hexDigit_lt c1 h1
      have hc2 := hexDigit_lt c2 h2
      have := pair_canon c1 hc1 c2 hc2 h1 h2
      rw [hv1, hv2] at this
      simp only [Option.getD_some] at this
      rw [bytesToHex_cons]
      have h16 : 16 * v1 + v2 < 256 := by
        have b1 : v1 < 16 := by have := hexCharVal_lt c1; rwa [hv1] at this
        have b2 : v2 < 16 := by have := hexCharVal_lt c2; rwa [hv2] at this
        omega
      simp only [List.map_cons]
      have hpair : [hexDigitLower ((16 * v1 + v2) / 16), hexDigitLower ((16 * v1 + v2) % 16)] =
          [toLowerAscii c1, toLowerAscii c2] := by
        simpa [encodeByteHex] using this
      simp only [List.cons.injEq] at hpair
      rw [hpair.1, hpair.2.1, henc]
    · simp only [List.length_cons] at *
      omega
    · intro b hb
      rcases List.mem_cons.mp hb with rfl | hb'
      · have b1 : v1 < 16 := by have := hexCharVal_lt c1; rwa [hv1] at this
        have b2 : v2 < 16 := by have := hexCharVal_lt c2; rwa [hv2] at this
        omega
      · exact hbound b hb'

/-- C9: for every 8-byte PID, `parse (format p) = p` and the format is
exactly 16 lowercase hex characters; parsing rejects every input whose
length differs from 16 (`WrongLength`) or that contains a non-hex byte
(`NonHex`); all-hex input of length 16 (uppercase included) is accepted and
canonicalized to lowercase.  Equality is on the raw bytes by construction
(`Pid` is the byte list). -/
theorem payment_id_roundtrip_contract :
    (∀ p : Pid, p.length = 8 → (∀ b ∈ p, b < 256) →
      PaymentId.parse (PaymentId.toHex p) = .ok p ∧
      (PaymentId.toHex p).length = 16 ∧
      (∀ c ∈ PaymentId.toHex p, isLowerHexChar c = true)) ∧
    (∀ s : List Nat, s.length ≠ 16 → PaymentId.parse s = .error .wrongLength) ∧
    (∀ s : List Nat, s.length = 16 → (∃ c ∈ s, isAsciiHexDigit c = false) →
      PaymentId.parse s = .error .nonHex) ∧
    (∀ s : List Nat, s.length = 16 → (∀ c ∈ s, isAsciiHexDigit c = true) →
      ∃ q, PaymentId.parse s = .ok q ∧ PaymentId.toHex q = s.map toLowerAscii) := by
  refine ⟨?_, ?_, ?_, ?_⟩
  · intro p h8 hb
    have hlen : (PaymentId.toHex p).length = 16 := by
      rw [PaymentId.toHex, bytesToHex_length, h8]
    have hlow := bytesToHex_lower p hb
    have hhex : (PaymentId.toHex p).all isAsciiHexDigit = true := by
      rw [List.all_eq_true]
      exact fun c hc => lowerHex_isHexDigit c (hlow c hc)
    refine ⟨?_, hlen, hlow⟩
    have hval : validate_pid (PaymentId.toHex p) = .ok () := by
      unfold validate_pid
      rw [hlen]
      simp [PID_LENGTH, hhex]
    have hdec : decode_pid_hex (PaymentId.toHex p) = .ok p := by
      unfold decode_pid_hex hexDecode PaymentId.toHex
      rw [decodeHexPairs_bytesToHex p hb]
      have hlen' : (bytesToHex p).length = 16 := by rw [bytesToHex_length, h8]
      rw [hlen']
      simp [h8]
    unfold PaymentId.parse
    rw [hval, hdec]
  · intro s hs
    unfold PaymentId.parse validate_pid
    simp [PID_LENGTH, hs]
  · intro s hlen hbad
    obtain ⟨c, hc, hcf⟩ := hbad
    have : ¬ s.all isAsciiHexDigit = true := by
      rw [List.all_eq_true]
      intro hall
      rw [hall c hc] at hcf
      cases hcf
    unfold PaymentId.parse validate_pid
    rw [hlen]
    simp only [PID_LENGTH, if_neg (by omega : ¬ (16 : Nat) ≠ 16)]
    simp [this]
  · intro s hlen hall
    have hall' : s.all isAsciiHexDigit = true := List.all_eq_true.mpr hall
    obtain ⟨bs, hdec, henc, hlen2, _⟩ :=
      decodeHexPairs_canon s hall' (by rw [hlen])
    refine ⟨bs, ?_, henc⟩
    have hval : validate_pid s = .ok () := by
      unfold validate_pid
      rw [hlen]
      simp [PID_LENGTH, hall']
    have hdec8 : decode_pid_hex s = .ok bs := by
      unfold decode_pid_hex hexDecode
      rw [hlen, hdec]
      have : bs.length = 8 := by omega
      simp [this]
    unfold PaymentId.parse
    rw [hval, hdec8]

/-- C9 witness: the round trip evaluated at the concrete PID
`0x1111111111111111`. -/
theorem payment_id_roundtrip_contract_witness :
    PaymentId.parse (PaymentId.toHex (List.replicate 8 17)) = .ok (List.replicate 8 17) :=
  (payment_id_roundtrip_contract.1 (List.replicate 8 17) (by decide) (by decide)).1

/-! ## C1: payment store contract -/

/-- A pid that is present in the table and claimed in every row carrying it. -/
def claimedForever (p : Pid) (db : PaymentDb) : Prop :=
  (∃ r ∈ db, r.pid = p) ∧ ∀ r ∈ db, r.pid = p → r.status = .claimed

theorem claimable_pid {p : Pid} {r : PaymentRow} (h : claimableRow p r = true) :
    r.pid = p := by
  simp only [claimableRow, Bool.and_eq_true, beq_iff_eq] at h
  exact h.1

theorem claimable_status {p : Pid} {r : PaymentRow} (h : claimableRow p r = true) :
    r.status = .unclaimed := by
  simp only [claimableRow, Bool.and_eq_true, beq_iff_eq] at h
  exact h.2

theorem countP_pid_le_one (p : Pid) (db : PaymentDb)
    (h : (db.map PaymentRow.pid).Nodup) :
    db.countP (fun r => r.pid == p) ≤ 1 := by
  induction db with
  | nil => simp
  | cons a rest ih =>
    simp only [List.map_cons, List.nodup_cons] at h
    rw [List.countP_cons]
    by_cases ha : a.pid = p
    · have hzero : rest.countP (fun r => r.pid == p) = 0 := by
        rw [List.countP_eq_zero]
        intro r hr hrp
        simp only [beq_iff_eq] at hrp
        exact h.1 (by rw [ha, ← hrp]; exact List.mem_map_of_mem PaymentRow.pid hr)
      simp [ha, hzero]
    · simpa [ha] using ih h.2

theorem claim_payment_fst (now : Nat) (p : Pid) (db : PaymentDb) :
    (claim_payment now p db).1 =
      (db.find? (claimableRow p)).map
        fun r => (⟨r.pid, r.txid, r.amount, r.block_height, now⟩ : ClaimOutcome) := by
  unfold claim_payment
  cases db.find? (claimableRow p) <;> simp

theorem claim_payment_snd (now : Nat) (p : Pid) (db : PaymentDb) :
    (claim_payment now p db).2 =
      db.map fun r => if claimableRow p r then claimRowUpdate now r else r := by
  unfold claim_payment
  cases db.find? (claimableRow p) <;> simp

/-- C1: after `insert_payment`, `find_payment` is `Some`; `claim_payment`
touches only rows with the pid and `Unclaimed` status, setting the status to
`Claimed` and stamping `claimed_at = now`; it returns the updated row's
fields iff exactly one row was affected (the pid is the primary key, so the
table carries no duplicate pids); and once it has returned `Some` the pid
stays claimed through any later `insert_payment` / `claim_payment`, so every
subsequent `claim_payment` of that pid returns `None`. -/
theorem claim_payment_contract (now now2 : Nat) (p : Pid) (db : PaymentDb)
    (hnodup : (db.map PaymentRow.pid).Nodup) :
    (∀ np : NewPayment, (find_payment np.pid (insert_payment np db)).isSome = true) ∧
    (∀ i : Nat, ∀ hi : i < db.length,
      (claimableRow p db[i] = false → (claim_payment now p db).2[i]? = some db[i]) ∧
      (claimableRow p db[i] = true →
        (claim_payment now p db).2[i]? = some (claimRowUpdate now db[i]))) ∧
    ((claim_payment now p db).1.isSome = true ↔ db.countP (claimableRow p) = 1) ∧
    (∀ o, (claim_payment now p db).1 = some o →
      ∃ r ∈ db, claimableRow p r = true ∧
        o = ⟨r.pid, r.txid, r.amount, r.block_height, now⟩) ∧
    ((claim_payment now p db).1.isSome = true →
      claimedForever p (claim_payment now p db).2) ∧
    (∀ db2 : PaymentDb, claimedForever p db2 → (claim_payment now2 p db2).1 = none) ∧
    (∀ db2 : PaymentDb, ∀ np : NewPayment, claimedForever p db2 →
      claimedForever p (insert_payment np db2)) ∧
    (∀ db2 : PaymentDb, ∀ q : Pid, ∀ now3 : Nat, claimedForever p db2 →
      claimedForever p (claim_payment now3 q db2).2) := by
  refine ⟨?_, ?_, ?_, ?_, ?_, ?_, ?_, ?_⟩
  · intro np
    unfold insert_payment find_payment
    by_cases h : (db.any fun r => r.pid == np.pid) = true
    · simp only [h, if_true]
      rw [List.find?_isSome]
      obtain ⟨r, hr, hrp⟩ := List.any_eq_true.mp h
      exact ⟨r, hr, hrp⟩
    · simp only [h, if_false]
      rw [List.find?_isSome]
      exact ⟨_, List.mem_append_right db (List.mem_singleton_self _), by simp⟩
  · intro i hi
    rw [claim_payment_snd]
    constructor <;> intro hc <;>
      rw [List.getElem?_map, List.getElem?_eq_getElem hi] <;> simp [hc]
  · rw [claim_payment_fst]
    constructor
    · intro h
      have hsome : (db.find? (claimableRow p)).isSome = true := by
        cases hf : db.find? (claimableRow p) <;> rw [hf] at h <;> simp_all
      have hex : ∃ r ∈ db, claimableRow p r = true := by
        obtain ⟨r, hr, hcr⟩ := List.find?_isSome.mp hsome
        exact ⟨r, hr, hcr⟩
      have hpos : 0 < db.countP (claimableRow p) := List.countP_pos_iff.mpr hex
      have hle : db.countP (claimableRow p) ≤ db.countP (fun r => r.pid == p) :=
        List.countP_mono_left fun r hr hcr => by
          simp [beq_iff_eq, claimable_pid hcr]
      have := countP_pid_le_one p db hnodup
      omega
    · intro h
      have hpos : 0 < db.countP (claimableRow p) := by omega
      obtain ⟨r, hr, hcr⟩ := List.countP_pos_iff.mp hpos
      have : (db.find? (claimableRow p)).isSome = true :=
        List.find?_isSome.mpr ⟨r, hr, hcr⟩
      cases hf : db.find? (claimableRow p) <;> rw [hf] at this <;> simp_all
  · intro o ho
    rw [claim_payment_fst] at ho
    cases hf : db.find? (claimableRow p) with
    | none => rw [hf] at ho; cases ho
    | some r =>
      rw [hf] at ho
      simp only [Option.map_some', Option.some.injEq] at ho
      exact ⟨r, List.mem_of_find?_eq_some hf, List.find?_some hf, ho.symm⟩
  · intro h
    rw [claim_payment_snd]
    rw [claim_payment_fst] at h
    cases hf : db.find? (claimableRow p) with
    | none => rw [hf] at h; simp at h
    | some r =>
      have hrmem := List.mem_of_find?_eq_some hf
      have hrc : claimableRow p r = true := List.find?_some hf
      constructor
      · refine ⟨claimRowUpdate now r, ?_, ?_⟩
        · have heq : (if claimableRow p r then claimRowUpdate now r else r) =
              claimRowUpdate now r := by simp [hrc]
          exact heq ▸ List.mem_map_of_mem _ hrmem
        · simpa [claimRowUpdate] using claimable_pid hrc
      · intro r' hr' hp'
        obtain ⟨x, hx, hxe⟩ := List.mem_map.mp hr'
        by_cases hcx : claimableRow p x = true
        · rw [if_pos hcx] at hxe
          rw [← hxe]
          rfl
        · rw [if_neg hcx] at hxe
          subst hxe
          cases hst : x.status
          · exact absurd (by simp [claimableRow, hp', hst]) hcx
          · rfl
  · rintro db2 ⟨hex, hall⟩
    rw [claim_payment_fst]
    have hnone : db2.find? (claimableRow p) = none := by
      rw [List.find?_eq_none]
      intro r hr hc
      have h1 := claimable_pid hc
      have h2 := claimable_status hc
      rw [hall r hr h1] at h2
      cases h2
    rw [hnone]
    rfl
  · rintro db2 np ⟨⟨r0, hr0, hr0p⟩, hall⟩
    unfold insert_payment
    by_cases h : (db2.any fun r => r.pid == np.pid) = true
    · simp only [h, if_true]
      exact ⟨⟨r0, hr0, hr0p⟩, hall⟩
    · simp only [h, if_false]
      refine ⟨⟨r0, List.mem_append_left _ hr0, hr0p⟩, ?_⟩
      intro r hr hrp
      rcases List.mem_append.mp hr with hr' | hr'
      · exact hall r hr' hrp
      · rw [List.mem_singleton] at hr'
        subst hr'
        exfalso
        have hnp : np.pid = p := hrp
        exact h (List.any_eq_true.mpr ⟨r0, hr0, by simp [beq_iff_eq, hr0p, hnp]⟩)
  · rintro db2 q now3 ⟨⟨r0, hr0, hr0p⟩, hall⟩
    rw [claim_payment_snd]
    constructor
    · refine ⟨if claimableRow q r0 then claimRowUpdate now3 r0 else r0,
        List.mem_map_of_mem _ hr0, ?_⟩
      by_cases hc : claimableRow q r0 = true <;> simp [hc, claimRowUpdate, hr0p]
    · intro r hr hrp
      obtain ⟨x, hx, hxe⟩ := List.mem_map.mp hr
      by_cases hc : claimableRow q x = true
      · rw [if_pos hc] at hxe
        rw [← hxe]
        rfl
      · rw [if_neg hc] at hxe
        subst hxe
        exact hall x hx hrp

/-- C1 witness: the returns-iff-one-row-affected clause at a concrete
one-row table. -/
theorem claim_payment_contract_witness :
    ((claim_payment 5 (List.replicate 8 17)
        [⟨List.replicate 8 17, [116, 120, 49], 42, 100, .unclaimed, 0, none⟩]).1.isSome
        = true ↔
      ([(⟨List.replicate 8 17, [116, 120, 49], 42, 100, .unclaimed, 0, none⟩ : PaymentRow)]
        ).countP (claimableRow (List.replicate 8 17)) = 1) :=
  (claim_payment_contract 5 6 (List.replicate 8 17)
    [⟨List.replicate 8 17, [116, 120, 49], 42, 100, .unclaimed, 0, none⟩]
    (by decide)).2.2.1

/-! ## C4: revocation -/

theorem revoke_map_token (tokens : TokenDb) (t : List Nat) (updated : TokenRow)
    (hupd : updated.token = t) :
    ((tokens.map fun r => if r.token == t then updated else r).map TokenRow.token)
      = tokens.map TokenRow.token := by
  rw [List.map_map]
  apply List.map_congr_left
  intro r _
  by_cases h : (r.token == t) = true
  · simp only [Function.comp_apply, h, if_true, hupd]
    exact (beq_iff_eq.mp h).symm
  · have hne : r.token ≠ t := by simpa using h
    simp [Function.comp_apply, hne]

/-- C4 counterexample: the claim says every subsequent revocation call
returns the prevailing state with HTTP 200, but the handler answers the
second call with the `AlreadyRevoked` error, mapped to HTTP 409. -/
theorem revoke_second_call_counterexample :
    (revoke_token_handler 200
      (revoke_token_handler 100
        [⟨List.replicate 32 222, List.replicate 8 17, 42, 10, none, none, 0⟩]
        (bytesToHex (List.replicate 32 222)) (some [97]) (some 5)).2
      (bytesToHex (List.replicate 32 222)) (some [97]) (some 5)).1
      = .error .alreadyRevoked ∧
    httpStatus .alreadyRevoked = 409 ∧
    (revoke_token_handler 100
      [⟨List.replicate 32 222, List.replicate 8 17, 42, 10, none, none, 0⟩]
      (bytesToHex (List.replicate 32 222)) (some [97]) (some 5)).1
      = .ok ⟨"revoked", 42, 10, some 100, 5⟩ := by decide

/-- C4 (amended): the first revocation call transitions the token from
active to revoked (HTTP 200, `revoked_at = now₁`); every subsequent call
leaves the store unchanged — the stored `revoked_at` is never re-stamped and
the storage-level `revoke_token` idempotently returns the prevailing record —
but the handler answers it with the `AlreadyRevoked` error (HTTP 409
Conflict), not with a 200 response. -/
theorem revoke_token_write_once (now1 now2 : Nat) (tokens : TokenDb)
    (row : TokenRow) (raw : List Nat) (reason reason2 : Option (List Nat))
    (score score2 : Option Int)
    (hparse : ServiceToken.parse raw = .ok row.token)
    (hnodup : (tokens.map TokenRow.token).Nodup)
    (hmem : row ∈ tokens) (hactive : row.revoked_at = none) :
    revoke_token_handler now1 tokens raw reason score =
      (.ok ⟨"revoked", row.amount, row.issued_at, some now1, score.getD row.abuse_score⟩,
       tokens.map fun r => if r.token == row.token then
          { row with
            revoked_at := some now1
            revoke_reason := reason
            abuse_score := score.getD row.abuse_score } else r) ∧
    revoke_token_handler now2
        (revoke_token_handler now1 tokens raw reason score).2 raw reason2 score2 =
      (.error .alreadyRevoked, (revoke_token_handler now1 tokens raw reason score).2) ∧
    find_token row.token (revoke_token_handler now1 tokens raw reason score).2 =
      some { row with
             revoked_at := some now1
             revoke_reason := reason
             abuse_score := score.getD row.abuse_score } ∧
    revoke_token now2 ⟨row.token, reason2, score2⟩
        (revoke_token_handler now1 tokens raw reason score).2 =
      (some { row with
              revoked_at := some now1
              revoke_reason := reason
              abuse_score := score.getD row.abuse_score },
       (revoke_token_handler now1 tokens raw reason score).2) := by
  have hfind : find_token row.token tokens = some row := by
    unfold find_token
    exact find?_eq_some_of_unique TokenRow.token hnodup hmem _
      (fun a ha => beq_iff_eq.mp ha) (by simp)
  have hrev1 : revoke_token now1 ⟨row.token, reason, score⟩ tokens =
      (some { row with
              revoked_at := some now1
              revoke_reason := reason
              abuse_score := score.getD row.abuse_score },
       tokens.map fun r => if r.token == row.token then
          { row with
            revoked_at := some now1
            revoke_reason := reason
            abuse_score := score.getD row.abuse_score } else r) := by
    unfold revoke_token
    unfold find_token at hfind
    rw [hfind]
    simp [hactive]
  have h1 : revoke_token_handler now1 tokens raw reason score =
      (.ok ⟨"revoked", row.amount, row.issued_at, some now1, score.getD row.abuse_score⟩,
       tokens.map fun r => if r.token == row.token then
          { row with
            revoked_at := some now1
            revoke_reason := reason
            abuse_score := score.getD row.abuse_score } else r) := by
    simp only [revoke_token_handler, hparse, hfind, hactive, hrev1]
    simp
  have hT1 : (revoke_token_handler now1 tokens raw reason score).2 =
      tokens.map fun r => if r.token == row.token then
        { row with
          revoked_at := some now1
          revoke_reason := reason
          abuse_score := score.getD row.abuse_score } else r := by
    rw [h1]
  have hfindM : find_token row.token
      (tokens.map fun r => if r.token == row.token then
        { row with
          revoked_at := some now1
          revoke_reason := reason
          abuse_score := score.getD row.abuse_score } else r) =
      some { row with
             revoked_at := some now1
             revoke_reason := reason
             abuse_score := score.getD row.abuse_score } := by
    unfold find_token
    apply find?_eq_some_of_unique TokenRow.token
    · rw [revoke_map_token tokens row.token
        { row with
          revoked_at := some now1
          revoke_reason := reason
          abuse_score := score.getD row.abuse_score } rfl]
      exact hnodup
    · have hmm := List.mem_map_of_mem
        (fun r => if r.token == row.token then
          { row with
            revoked_at := some now1
            revoke_reason := reason
            abuse_score := score.getD row.abuse_score } else r) hmem
      simp only [beq_self_eq_true, if_true] at hmm
      exact hmm
    · exact fun a ha => beq_iff_eq.mp ha
    · simp
  have hfind1 : find_token row.token (revoke_token_handler now1 tokens raw reason score).2 =
      some { row with
             revoked_at := some now1
             revoke_reason := reason
             abuse_score := score.getD row.abuse_score } := by
    rw [hT1]
    exact hfindM
  have h2 : revoke_token_handler now2
      (revoke_token_handler now1 tokens raw reason score).2 raw reason2 score2 =
      (.error .alreadyRevoked, (revoke_token_handler now1 tokens raw reason score).2) := by
    rw [hT1]
    simp only [revoke_token_handler, hparse, hfindM]
    simp
  have hrev2 : revoke_token now2 ⟨row.token, reason2, score2⟩
      (revoke_token_handler now1 tokens raw reason score).2 =
      (some { row with
              revoked_at := some now1
              revoke_reason := reason
              abuse_score := score.getD row.abuse_score },
       (revoke_token_handler now1 tokens raw reason score).2) := by
    rw [hT1]
    unfold revoke_token
    unfold find_token at hfindM
    rw [hfindM]
    simp
  exact ⟨h1, h2, hfind1, hrev2⟩

/-- C4 witness: storage-level idempotence at a concrete one-token store. -/
theorem revoke_token_write_once_witness :
    revoke_token 200 ⟨List.replicate 32 222, none, none⟩
        (revoke_token_handler 100
          [⟨List.replicate 32 222, List.replicate 8 17, 42, 10, none, none, 0⟩]
          (bytesToHex (List.replicate 32 222)) (some [97]) (some 5)).2 =
      (some ⟨List.replicate 32 222, List.replicate 8 17, 42, 10, some 100, some [97], 5⟩,
       (revoke_token_handler 100
          [⟨List.replicate 32 222, List.replicate 8 17, 42, 10, none, none, 0⟩]
          (bytesToHex (List.replicate 32 222)) (some [97]) (some 5)).2) :=
  (revoke_token_write_once 100 200
    [⟨List.replicate 32 222, List.replicate 8 17, 42, 10, none, none, 0⟩]
    ⟨List.replicate 32 222, List.replicate 8 17, 42, 10, none, none, 0⟩
    (bytesToHex (List.replicate 32 222)) (some [97]) none (some 5) none
    (by decide) (by decide) (by decide) rfl).2.2.2

/-! ## C5: the redemption gate -/

/-- Every non-short-circuited request starts with the `claim_payment` storage
call. -/
theorem redeemClaimPhase_ops (now : Nat) (pid : Pid) (s : ApiSys) :
    (redeemClaimPhase now pid s).2.2.head? = some .claimPaymentOp := by
  unfold redeemClaimPhase
  cases h : claim_payment now pid s.payments with
  | mk fst snd => cases fst <;> simp

/-- C5 counterexample: a PID that is *not* contained in the PID cache (its
negative entry is 600 ms old, within the 60 s TTL, so `might_contain` is
false) is nonetheless *not* short-circuited: the handler performs storage
operations and even answers 200, because the stale negative entry fails the
500 ms grace comparison.  (No Bloom filter appears in the handler at all.) -/
theorem redeem_gate_counterexample :
    mightContain
      (pruneExpired 600 (⟨[], [(List.replicate 8 17, 0)], 60000⟩ : PidCacheState))
      (List.replicate 8 17) = false ∧
    (redeem_handler 600
      ⟨[⟨List.replicate 8 17, [116, 120, 49], 42, 100, .unclaimed, 0, none⟩], [],
       ⟨[], [(List.replicate 8 17, 0)], 60000⟩⟩
      (PaymentId.toHex (List.replicate 8 17))).2.2 ≠ [] ∧
    (redeem_handler 600
      ⟨[⟨List.replicate 8 17, [116, 120, 49], 42, 100, .unclaimed, 0, none⟩], [],
       ⟨[], [(List.replicate 8 17, 0)], 60000⟩⟩
      (PaymentId.toHex (List.replicate 8 17))).1 ≠ .error .notFound := by decide

/-- C5 (amended): for a parsed PID the handler short-circuits with 404 and
performs **zero** storage operations exactly when the PID cache holds an
unexpired negative entry younger than the 500 ms grace; in every other case
(no negative entry, or one at least grace-old) the request proceeds to
storage, its first operation being `claim_payment`. -/
theorem redeem_gate_blocks_iff (now : Nat) (sys : ApiSys) (rawPid : List Nat)
    (pid : Pid) (hparse : PaymentId.parse rawPid = .ok pid) :
    (∀ a, negativeEntryAge now (pruneExpired now sys.cache) pid = some a →
      a < PID_CACHE_NEGATIVE_GRACE →
      redeem_handler now sys rawPid =
        (.error .notFound, { sys with cache := pruneExpired now sys.cache }, [])) ∧
    ((∀ a, negativeEntryAge now (pruneExpired now sys.cache) pid = some a →
        ¬ a < PID_CACHE_NEGATIVE_GRACE) →
      (redeem_handler now sys rawPid).2.2.head? = some .claimPaymentOp) := by
  constructor
  · intro a hage hlt
    have hfind : ((pruneExpired now sys.cache).negatives.find?
        (fun e => e.1 == pid)).isSome = true := by
      unfold negativeEntryAge at hage
      cases hf : (pruneExpired now sys.cache).negatives.find? (fun e => e.1 == pid) <;>
        rw [hf] at hage <;> simp_all
    have hany : ((pruneExpired now sys.cache).negatives.any fun e => e.1 == pid) = true := by
      obtain ⟨e, he, hpe⟩ := List.find?_isSome.mp hfind
      exact List.any_eq_true.mpr ⟨e, he, hpe⟩
    have hmc : mightContain (pruneExpired now sys.cache) pid = false := by
      unfold mightContain
      rw [hany]
      rfl
    simp only [redeem_handler, hparse, hmc, Bool.not_false, if_true, hage, hlt,
      decide_eq_true_eq, if_pos]
  · intro hge
    by_cases hmc : mightContain (pruneExpired now sys.cache) pid = true
    · simp only [redeem_handler, hparse, hmc, Bool.not_true, Bool.false_eq_true,
        if_false]
      exact redeemClaimPhase_ops now pid _
    · have hmc' : mightContain (pruneExpired now sys.cache) pid = false := by
        simpa using hmc
      cases hage : negativeEntryAge now (pruneExpired now sys.cache) pid with
      | none =>
        simp only [redeem_handler, hparse, hmc', Bool.not_false, if_true, hage]
        exact redeemClaimPhase_ops now pid _
      | some a =>
        have hnl := hge a hage
        simp only [redeem_handler, hparse, hmc', Bool.not_false, if_true, hage,
          decide_eq_true_eq, if_neg hnl]
        exact redeemClaimPhase_ops now pid _

/-- C5 witness: a fresh (age 100 ms < 500 ms) negative entry short-circuits
the request with 404 and an empty storage-operation trace. -/
theorem redeem_gate_blocks_iff_witness :
    redeem_handler 100 ⟨[], [], ⟨[], [(List.replicate 8 17, 0)], 60000⟩⟩
        (PaymentId.toHex (List.replicate 8 17)) =
      (.error .notFound,
       { payments := [], tokens := [],
         cache := pruneExpired 100
           (⟨[], [(List.replicate 8 17, 0)], 60000⟩ : PidCacheState) }, []) :=
  (redeem_gate_blocks_iff 100 ⟨[], [], ⟨[], [(List.replicate 8 17, 0)], 60000⟩⟩
    (PaymentId.toHex (List.replicate 8 17)) (List.replicate 8 17) (by decide)).1
    100 (by decide) (by decide)

/-! ## C6: the redemption path records negative entries -/

/-- C6 counterexample: redeeming an absent PID from a fresh state answers
404 *and* records a negative entry `(pid, now)` in the cache — the cache
state is changed by the failed redemption, contradicting the claim that the
path never marks a PID absent and maintains no negative cache. -/
theorem negative_cache_counterexample :
    (redeem_handler 50 ⟨[], [], ⟨[], [], 60000⟩⟩
      (PaymentId.toHex (List.replicate 8 17))).1 = .error .notFound ∧
    (redeem_handler 50 ⟨[], [], ⟨[], [], 60000⟩⟩
      (PaymentId.toHex (List.replicate 8 17))).2.1.cache.negatives
      = [(List.replicate 8 17, 50)] ∧
    (redeem_handler 50 ⟨[], [], ⟨[], [], 60000⟩⟩
      (PaymentId.toHex (List.replicate 8 17))).2.1.cache
      ≠ (⟨[], [], 60000⟩ : PidCacheState) := by decide

/-- C6 (amended): when the claim comes back absent and `find_payment`
returns `None`, the engine responds `NotFound` **and marks the PID absent**:
`handle_absent` inserts a TTL'd negative entry `(pid, now)` into the cache
(the snapshot maintains a negative cache, contrary to the claim). -/
theorem redeem_absent_marks_negative (now : Nat) (sys : ApiSys) (rawPid : List Nat)
    (pid : Pid) (hparse : PaymentId.parse rawPid = .ok pid)
    (hgate : mightContain (pruneExpired now sys.cache) pid = true)
    (habsent : find_payment pid sys.payments = none) :
    redeem_handler now sys rawPid =
      (.error .notFound,
       { sys with cache := mark_absent now pid (pruneExpired now sys.cache) },
       [.claimPaymentOp, .findPaymentOp]) ∧
    (pid, now) ∈ (redeem_handler now sys rawPid).2.1.cache.negatives := by
  have habs' : ∀ r ∈ sys.payments, ¬ (r.pid == pid) = true := by
    unfold find_payment at habsent
    exact List.find?_eq_none.mp habsent
  have hnocl : sys.payments.find? (claimableRow pid) = none := by
    rw [List.find?_eq_none]
    intro r hr hc
    exact habs' r hr (by simp [claimable_pid hc])
  have hmap : (sys.payments.map fun r =>
      if claimableRow pid r then claimRowUpdate now r else r) = sys.payments := by
    apply map_eq_self_of
    intro r hr
    cases hc : claimableRow pid r
    · simp
    · exact absurd (by simp [claimable_pid hc]) (habs' r hr)
  have hclaim : claim_payment now pid sys.payments = (none, sys.payments) := by
    unfold claim_payment
    rw [hnocl]
    simpa using hmap
  have hmain : redeem_handler now sys rawPid =
      (.error .notFound,
       { sys with cache := mark_absent now pid (pruneExpired now sys.cache) },
       [.claimPaymentOp, .findPaymentOp]) := by
    simp only [redeem_handler, hparse, hgate, Bool.not_true, Bool.false_eq_true,
      if_false, redeemClaimPhase, hclaim, handle_absent, habsent]
  refine ⟨hmain, ?_⟩
  rw [hmain]
  simp [mark_absent]

/-- C6 witness: the amended behaviour at a concrete empty state. -/
theorem redeem_absent_marks_negative_witness :
    redeem_handler 70 ⟨[], [], ⟨[], [], 60000⟩⟩
        (PaymentId.toHex (List.replicate 8 17)) =
      (.error .notFound,
       { payments := [], tokens := [],
         cache := mark_absent 70 (List.replicate 8 17)
           (pruneExpired 70 (⟨[], [], 60000⟩ : PidCacheState)) },
       [.claimPaymentOp, .findPaymentOp]) :=
  (redeem_absent_marks_negative 70 ⟨[], [], ⟨[], [], 60000⟩⟩
    (PaymentId.toHex (List.replicate 8 17)) (List.replicate 8 17)
    (by decide) (by decide) (by decide)).1

/-! ## C3: deterministic service-token derivation -/

/-- C3: the minted service token is SHA3-256 of the 16 lowercase hex
characters of the PID, then the single separator byte 0x7C (`|`), then the
ASCII bytes of the txid.  `derive_service_token` is a pure function of
`(pid, txid)` in this embedding, hence stable across calls.  The final
conjunct checks the SHA3-256 engine against the concrete vector recorded in
the repository's unit test `service_token_uses_separator_and_sha3`. -/
theorem derive_service_token_spec (p : Pid) (t : List Nat)
    (h8 : p.length = 8) (hb : ∀ b ∈ p, b < 256) :
    derive_service_token p t = sha3_256 (PaymentId.toHex p ++ [0x7C] ++ t) ∧
    (PaymentId.toHex p).length = 16 ∧
    (∀ c ∈ PaymentId.toHex p, isLowerHexChar c = true) ∧
    derive_service_token [0x01, 0x23, 0x45, 0x67, 0x89, 0xab, 0xcd, 0xef]
        [116, 120, 49] =
      [0x36, 0x9e, 0x0f, 0x7c, 0x09, 0x12, 0x47, 0x83, 0xe4, 0x5f, 0xa6, 0xa6,
       0xb7, 0x58, 0x87, 0x33, 0xe3, 0x62, 0xe2, 0x91, 0x7f, 0x36, 0xfb, 0x70,
       0x36, 0xf4, 0x92, 0x84, 0xc1, 0x95, 0x2f, 0xa9] := by
  refine ⟨rfl, ?_, bytesToHex_lower p hb, by decide⟩
  rw [PaymentId.toHex, bytesToHex_length, h8]

/-- C3 witness: the preimage-structure clause at the repository's own test
PID and txid. -/
theorem derive_service_token_spec_witness :
    derive_service_token [0x01, 0x23, 0x45, 0x67, 0x89, 0xab, 0xcd, 0xef]
        [116, 120, 49] =
      sha3_256 (PaymentId.toHex [0x01, 0x23, 0x45, 0x67, 0x89, 0xab, 0xcd, 0xef]
        ++ [0x7C] ++ [116, 120, 49]) :=
  (derive_service_token_spec [0x01, 0x23, 0x45, 0x67, 0x89, 0xab, 0xcd, 0xef]
    [116, 120, 49] (by decide) (by decide)).1

/-! ## C2: double redemption is idempotent modulo the status tag -/

/-- C2: redeeming a persisted, unclaimed payment and then redeeming the same
PID again yields two 200 responses with the same `service_token` (the hex of
the deterministically derived token) and the same `balance`, with status
`"success"` on the first call and `"already_claimed"` on the second; apart
from the status tag the responses are identical.  Hypotheses: the table has
no duplicate pids (primary key), the cache holds no unexpired negative entry
for the PID, and the derived token is not yet in the token table. -/
theorem redeem_twice_same_token (now1 now2 : Nat) (sys : ApiSys) (rawPid : List Nat)
    (p : Pid) (row : PaymentRow)
    (hparse : PaymentId.parse rawPid = .ok p)
    (hnodup : (sys.payments.map PaymentRow.pid).Nodup)
    (hmem : row ∈ sys.payments) (hpid : row.pid = p)
    (hstatus : row.status = .unclaimed)
    (hneg : negativeEntryAge now1 (pruneExpired now1 sys.cache) p = none)
    (htok : find_token (derive_service_token p row.txid) sys.tokens = none) :
    (redeem_handler now1 sys rawPid).1 =
      .ok ⟨"success", bytesToHex (derive_service_token p row.txid), row.amount⟩ ∧
    (redeem_handler now2 (redeem_handler now1 sys rawPid).2.1 rawPid).1 =
      .ok ⟨"already_claimed", bytesToHex (derive_service_token p row.txid),
           row.amount⟩ := by
  -- the first call's gate passes: no negative entry survives pruning
  have hfind_none : (pruneExpired now1 sys.cache).negatives.find?
      (fun e => e.1 == p) = none := by
    unfold negativeEntryAge at hneg
    cases hf : (pruneExpired now1 sys.cache).negatives.find? (fun e => e.1 == p) with
    | none => rfl
    | some e => rw [hf] at hneg; simp at hneg
  have hmc1 : mightContain (pruneExpired now1 sys.cache) p = true := by
    unfold mightContain
    have hany : ((pruneExpired now1 sys.cache).negatives.any fun e => e.1 == p)
        = false := by
      cases hany : (pruneExpired now1 sys.cache).negatives.any fun e => e.1 == p
      · rfl
      · obtain ⟨e, he, hpe⟩ := List.any_eq_true.mp hany
        exact absurd hpe (List.find?_eq_none.mp hfind_none e he)
    rw [hany]
    rfl
  -- the first claim succeeds exactly on `row`
  have hclaimable : claimableRow p row = true := by
    simp [claimableRow, hpid, hstatus]
  have hfind1 : sys.payments.find? (claimableRow p) = some row :=
    find?_eq_some_of_unique PaymentRow.pid hnodup hmem _
      (fun a ha => (claimable_pid ha).trans hpid.symm) hclaimable
  have hclaim1 : claim_payment now1 p sys.payments =
      (some ⟨row.pid, row.txid, row.amount, row.block_height, now1⟩,
       sys.payments.map fun r =>
         if claimableRow p r then claimRowUpdate now1 r else r) := by
    unfold claim_payment
    rw [hfind1]
  -- the token insert succeeds (the derived token is fresh)
  have htokany : (sys.tokens.any fun r =>
      r.token == derive_service_token p row.txid) = false := by
    cases hany : sys.tokens.any fun r => r.token == derive_service_token p row.txid
    · rfl
    · obtain ⟨e, he, hpe⟩ := List.any_eq_true.mp hany
      unfold find_token at htok
      exact absurd hpe (List.find?_eq_none.mp htok e he)
  have hins : insert_token ⟨derive_service_token p row.txid, p, row.amount, now1, 0⟩
      sys.tokens =
      .ok (⟨derive_service_token p row.txid, p, row.amount, now1, none, none, 0⟩,
        sys.tokens ++
          [⟨derive_service_token p row.txid, p, row.amount, now1, none, none, 0⟩]) := by
    unfold insert_token
    rw [htokany]
    rfl
  -- the full first call
  have h1full : redeem_handler now1 sys rawPid =
      (.ok ⟨"success", bytesToHex (derive_service_token p row.txid), row.amount⟩,
       ⟨sys.payments.map fun r =>
          if claimableRow p r then claimRowUpdate now1 r else r,
        sys.tokens ++
          [⟨derive_service_token p row.txid, p, row.amount, now1, none, none, 0⟩],
        mark_present p (pruneExpired now1 sys.cache)⟩,
       [.claimPaymentOp, .insertTokenOp]) := by
    simp only [redeem_handler, hparse, hmc1, Bool.not_true, Bool.false_eq_true,
      if_false, redeemClaimPhase, hclaim1, handle_success, hins, buildRedeemResponse]
  -- facts about the state after the first call
  have hall1 : ∀ r ∈ (sys.payments.map fun r =>
      if claimableRow p r then claimRowUpdate now1 r else r),
      ¬ claimableRow p r = true := by
    intro r hr hc
    obtain ⟨x, hx, hxe⟩ := List.mem_map.mp hr
    by_cases hcx : claimableRow p x = true
    · rw [if_pos hcx] at hxe
      subst hxe
      have := claimable_status hc
      simp [claimRowUpdate] at this
    · rw [if_neg hcx] at hxe
      subst hxe
      exact hcx hc
  have hnone2 : (sys.payments.map fun r =>
      if claimableRow p r then claimRowUpdate now1 r else r).find? (claimableRow p)
      = none := List.find?_eq_none.mpr hall1
  have hmapid2 : ((sys.payments.map fun r =>
        if claimableRow p r then claimRowUpdate now1 r else r).map fun r =>
        if claimableRow p r then claimRowUpdate now2 r else r) =
      (sys.payments.map fun r =>
        if claimableRow p r then claimRowUpdate now1 r else r) := by
    apply map_eq_self_of
    intro r hr
    have := hall1 r hr
    simp only [Bool.not_eq_true] at this
    simp [this]
  have hclaim2 : claim_payment now2 p (sys.payments.map fun r =>
      if claimableRow p r then claimRowUpdate now1 r else r) =
      (none, sys.payments.map fun r =>
        if claimableRow p r then claimRowUpdate now1 r else r) := by
    unfold claim_payment
    rw [hnone2, hmapid2]
  -- the updated row is found by `find_payment` on the new table
  have hnodup1 : ((sys.payments.map fun r =>
      if claimableRow p r then claimRowUpdate now1 r else r).map PaymentRow.pid).Nodup := by
    have hrw : ((sys.payments.map fun r =>
        if claimableRow p r then claimRowUpdate now1 r else r).map PaymentRow.pid) =
        sys.payments.map PaymentRow.pid := by
      rw [List.map_map]
      apply List.map_congr_left
      intro r _
      by_cases hc : claimableRow p r = true <;>
        simp [hc, claimRowUpdate, Function.comp]
    rw [hrw]
    exact hnodup
  have hmem1 : claimRowUpdate now1 row ∈ (sys.payments.map fun r =>
      if claimableRow p r then claimRowUpdate now1 r else r) := by
    have hb := List.mem_map_of_mem
      (fun r => if claimableRow p r then claimRowUpdate now1 r else r) hmem
    simp only [hclaimable, if_true] at hb
    exact hb
  have hfp2 : find_payment p (sys.payments.map fun r =>
      if claimableRow p r then claimRowUpdate now1 r else r) =
      some (claimRowUpdate now1 row) := by
    unfold find_payment
    apply find?_eq_some_of_unique PaymentRow.pid hnodup1 hmem1
    · exact fun a ha => (beq_iff_eq.mp ha).trans hpid.symm
    · simp [claimRowUpdate, hpid]
  -- the token lookup on the grown table returns the record of call 1
  have hft : find_token (derive_service_token p row.txid)
      (sys.tokens ++
        [⟨derive_service_token p row.txid, p, row.amount, now1, none, none, 0⟩]) =
      some ⟨derive_service_token p row.txid, p, row.amount, now1, none, none, 0⟩ := by
    unfold find_token
    rw [List.find?_append]
    unfold find_token at htok
    rw [htok]
    simp
  -- the second call's gate passes: `mark_present` removed the pid's entries
  have hmc2 : mightContain
      (pruneExpired now2 (mark_present p (pruneExpired now1 sys.cache))) p = true := by
    unfold mightContain
    have hany : ((pruneExpired now2
        (mark_present p (pruneExpired now1 sys.cache))).negatives.any
        fun e => e.1 == p) = false := by
      cases hany : (pruneExpired now2
          (mark_present p (pruneExpired now1 sys.cache))).negatives.any
          fun e => e.1 == p
      · rfl
      · obtain ⟨e, he, hpe⟩ := List.any_eq_true.mp hany
        unfold pruneExpired mark_present at he
        simp only [List.mem_filter] at he
        have := he.1.2
        simp_all
    rw [hany]
    rfl
  -- the full second call on the explicit state
  have h2full : (redeem_handler now2
      ⟨sys.payments.map fun r =>
         if claimableRow p r then claimRowUpdate now1 r else r,
       sys.tokens ++
         [⟨derive_service_token p row.txid, p, row.amount, now1, none, none, 0⟩],
       mark_present p (pruneExpired now1 sys.cache)⟩ rawPid).1 =
      .ok ⟨"already_claimed", bytesToHex (derive_service_token p row.txid),
           row.amount⟩ := by
    have hstat : ((claimRowUpdate now1 row).status == PaymentStatus.claimed) = true := by
      simp [claimRowUpdate]
    have htx : (claimRowUpdate now1 row).txid = row.txid := rfl
    have hamt : (claimRowUpdate now1 row).amount = row.amount := rfl
    simp only [redeem_handler, hparse, hmc2, Bool.not_true, Bool.false_eq_true,
      if_false, redeemClaimPhase, hclaim2, handle_absent, hfp2, hstat, htx, hamt,
      if_true, ensure_token_record, hft, buildRedeemResponse]
  constructor
  · rw [h1full]
  · rw [h1full]
    exact h2full

/-- C2 witness: the second call's `already_claimed` response at a concrete
one-payment state. -/
theorem redeem_twice_same_token_witness :
    (redeem_handler 2000
      (redeem_handler 1000
        ⟨[⟨List.replicate 8 17, [116, 120, 49], 42, 100, .unclaimed, 0, none⟩], [],
         ⟨[], [], 60000⟩⟩
        (PaymentId.toHex (List.replicate 8 17))).2.1
      (PaymentId.toHex (List.replicate 8 17))).1 =
      .ok ⟨"already_claimed",
           bytesToHex (derive_service_token (List.replicate 8 17) [116, 120, 49]),
           42⟩ :=
  (redeem_twice_same_token 1000 2000
    ⟨[⟨List.replicate 8 17, [116, 120, 49], 42, 100, .unclaimed, 0, none⟩], [],
     ⟨[], [], 60000⟩⟩
    (PaymentId.toHex (List.replicate 8 17)) (List.replicate 8 17)
    ⟨List.replicate 8 17, [116, 120, 49], 42, 100, .unclaimed, 0, none⟩
    (by decide) (by decide) (by decide) rfl rfl rfl rfl).2

end AnonTicket
